import Mathlib

/-!
Verification development for the server-room fire/overheat monitoring
dashboards (`dash_db4.py`, `admin.py`, `secure_dashboard7.py`).

The pipeline under verification: a background acquisition loop reads four
DHT probes and one 24×32 thermal array, filters glitch frames, publishes a
snapshot plus bounded ring histories, rate-limits durable logging of
readings and zlib-compressed JSON-encoded thermal frames, evaluates
threshold alerts under a cooldown, and serves replay / filtered history
queries.

Modelling conventions:
* Temperatures and humidities are exact rationals (`ℚ`); the Python floats
  are idealized to exact values.
* A serialized thermal frame value is a `DecNum` (decimal mantissa and
  fraction-digit count), the form in which `json.dumps` writes a finite
  float and `json.loads` reads it back.
* `zlib.compress` / `zlib.decompress` are external collaborators, taken as
  an abstract pair of functions with the lossless contract
  `decompress (compress s) = s` as a hypothesis.
* Timestamps are naturals; the `"YYYY-MM-DD HH:MM:SS"` strings stored by
  the code compare lexicographically exactly as their instants do, so the
  SQL `ORDER BY timestamp` / `timestamp >= ?` are order queries on a
  totally ordered key.
-/

namespace FireDash

/-! ## Decimal literal codec

`log_to_db` stores a frame as `zlib.compress(json.dumps(arr.tolist()).encode())`
and `replay_snapshot` recovers it with `json.loads(zlib.decompress(blob))`.
The JSON text produced for a grid of finite floats is a nested array of
decimal number literals separated by `", "`.  We implement that textual
codec concretely: rendering mirrors `json.dumps`'s output grammar, parsing
mirrors `json.loads` restricted to the text `json.dumps` emits. -/
/-- Test for a decimal digit character. -/
def isDigitC (c : Char) : Bool := 48 ≤ c.toNat && c.toNat ≤ 57

/-- The character for decimal digit `d` (total; inputs `≥ 9` give `'9'`). -/
def digitCh : Nat → Char
  | 0 => '0'
  | 1 => '1'
  | 2 => '2'
  | 3 => '3'
  | 4 => '4'
  | 5 => '5'
  | 6 => '6'
  | 7 => '7'
  | 8 => '8'
  | _ => '9'

/-- Render `v` as exactly `w` decimal digits, most significant first
(meaningful when `v < 10 ^ w`). -/
def renderFixed : Nat → Nat → List Char
  | 0, _ => []
  | w + 1, v => renderFixed w (v / 10) ++ [digitCh (v % 10)]

/-- Digit count worker; `fuel` bounds the recursion depth (any
`fuel ≥ n` is adequate). -/
def digitsLenAux : Nat → Nat → Nat
  | 0, _ => 1
  | fuel + 1, n => if n < 10 then 1 else digitsLenAux fuel (n / 10) + 1

/-- Number of decimal digits of `n` (at least one). -/
def digitsLen (n : Nat) : Nat := digitsLenAux n n

/-- Render a natural number in decimal. -/
def renderNat (n : Nat) : List Char := renderFixed (digitsLen n) n

/-- Consume leading digits, returning the accumulated value, the digit
count, and the rest of the input. -/
def parseDigitsCnt : List Char → Nat → Nat → Nat × Nat × List Char
  | [], acc, cnt => (acc, cnt, [])
  | c :: cs, acc, cnt =>
    if isDigitC c then parseDigitsCnt cs (acc * 10 + (c.toNat - 48)) (cnt + 1)
    else (acc, cnt, c :: cs)

/-- True when the input does not start with a digit (so a greedy digit run
stops here). -/
def noDigitHead : List Char → Bool
  | [] => true
  | c :: _ => !(isDigitC c)

/-- True when the input starts with a separator (or ends): not a digit and
not a decimal point.  This is what follows a rendered number inside a
rendered grid (`','`, `']'` or end of input). -/
def sepHead : List Char → Bool
  | [] => true
  | c :: _ => !(isDigitC c) && c != '.'

/-- After the integer digit run: an optional fraction part (a decimal point
followed by a nonempty digit run).  `ip` is the integer-part value; the
result combines it with the fraction digits into a single mantissa. -/
def parseFrac (ip : Nat) (rest : List Char) : Option (Nat × Nat × List Char) :=
  match rest with
  | [] => some (ip, 0, [])
  | c :: r2 =>
    if c = '.' then
      match parseDigitsCnt r2 0 0 with
      | (fp, cnt, r3) => if cnt = 0 then none else some (ip * 10 ^ cnt + fp, cnt, r3)
    else some (ip, 0, c :: r2)

/-- Parse an unsigned number literal: a nonempty digit run, optionally
followed by a decimal point and a second nonempty digit run.  Returns the
combined mantissa, the fraction-digit count, and the rest of the input. -/
def parseUNum (cs : List Char) : Option (Nat × Nat × List Char) :=
  match parseDigitsCnt cs 0 0 with
  | (ip, icnt, rest) => if icnt = 0 then none else parseFrac ip rest

/-- Render the unsigned decimal value `m / 10 ^ e`: the integer part in
decimal, then (when `e > 0`) a point and exactly `e` fraction digits. -/
def renderUDec (m e : Nat) : List Char :=
  if e = 0 then renderNat m
  else renderNat (m / 10 ^ e) ++ '.' :: renderFixed e (m % 10 ^ e)

/-- A decimal number literal: mantissa `m` and fraction-digit count `e`,
denoting the value `m / 10 ^ e`.  This is the exact numeric content of a
finite float as written by `json.dumps` and read back by `json.loads`. -/
structure DecNum where
  m : Int
  e : Nat
deriving DecidableEq, Repr

/-- The rational value of a decimal literal. -/
def DecNum.toRat (v : DecNum) : ℚ := (v.m : ℚ) / (10 : ℚ) ^ v.e

/-- Render a signed decimal literal. -/
def renderDec (v : DecNum) : List Char :=
  if v.m < 0 then '-' :: renderUDec v.m.natAbs v.e else renderUDec v.m.toNat v.e

/-- Parse a signed decimal literal. -/
def parseDec (cs : List Char) : Option (DecNum × List Char) :=
  match cs with
  | [] => none
  | c :: cs2 =>
    if c = '-' then
      match parseUNum cs2 with
      | some (m, e, rest) => some (⟨-(m : Int), e⟩, rest)
      | none => none
    else
      match parseUNum (c :: cs2) with
      | some (m, e, rest) => some (⟨(m : Int), e⟩, rest)
      | none => none

/-- Render a sequence of decimal literals separated by `", "`, the JSON
array body `json.dumps` emits between brackets. -/
def renderDecList : List DecNum → List Char
  | [] => []
  | v :: vs =>
    renderDec v ++ (match vs with
      | [] => []
      | _ :: _ => ',' :: ' ' :: renderDecList vs)

/-- Parse a nonempty `", "`-separated run of decimal literals terminated by
`']'` (which is consumed).  `fuel` bounds the number of elements; `acc`
accumulates the values parsed so far. -/
def parseDecListAux : Nat → List Char → List DecNum → Option (List DecNum × List Char)
  | 0, _, _ => none
  | fuel + 1, cs, acc =>
    match parseDec cs with
    | none => none
    | some (v, rest) =>
      match rest with
      | [] => none
      | c :: r2 =>
        if c = ']' then some (acc ++ [v], r2)
        else if c = ',' then
          match r2 with
          | [] => none
          | c2 :: r3 => if c2 = ' ' then parseDecListAux fuel r3 (acc ++ [v]) else none
        else none

/-- Render one grid row as a JSON array of numbers. -/
def renderRow (r : List DecNum) : List Char := '[' :: renderDecList r ++ [']']

/-- Parse the inside of a JSON number array, just after the opening
bracket: either an immediate `']'` (empty array) or a run of literals. -/
def parseRowBody : List Char → Option (List DecNum × List Char)
  | [] => none
  | c2 :: cs3 =>
    if c2 = ']' then some ([], cs3)
    else parseDecListAux ((c2 :: cs3).length + 1) (c2 :: cs3) []

/-- Parse one JSON array of numbers (consuming its closing bracket). -/
def parseRow (cs : List Char) : Option (List DecNum × List Char) :=
  match cs with
  | [] => none
  | c :: cs2 => if c = '[' then parseRowBody cs2 else none

/-- Render a sequence of rows separated by `", "`. -/
def renderRowList : List (List DecNum) → List Char
  | [] => []
  | r :: rs =>
    renderRow r ++ (match rs with
      | [] => []
      | _ :: _ => ',' :: ' ' :: renderRowList rs)

/-- Parse a nonempty `", "`-separated run of rows terminated by `']'`
(which is consumed). -/
def parseRowListAux : Nat → List Char → List (List DecNum) →
    Option (List (List DecNum) × List Char)
  | 0, _, _ => none
  | fuel + 1, cs, acc =>
    match parseRow cs with
    | none => none
    | some (r, rest) =>
      match rest with
      | [] => none
      | c :: r2 =>
        if c = ']' then some (acc ++ [r], r2)
        else if c = ',' then
          match r2 with
          | [] => none
          | c2 :: r3 => if c2 = ' ' then parseRowListAux fuel r3 (acc ++ [r]) else none
        else none

/-- Render a whole grid (list of rows) as nested JSON arrays, exactly the
text `json.dumps(raw_frame_arr.tolist())` produces. -/
def renderGrid (g : List (List DecNum)) : List Char := '[' :: renderRowList g ++ [']']

/-- Parse the inside of the outer array, just after the opening bracket. -/
def parseGridBody : List Char → Option (List (List DecNum) × List Char)
  | [] => none
  | c2 :: cs3 =>
    if c2 = ']' then some ([], cs3)
    else parseRowListAux ((c2 :: cs3).length + 1) (c2 :: cs3) []

/-- Parse a nested JSON array of numbers (consuming the closing bracket). -/
def parseGrid (cs : List Char) : Option (List (List DecNum) × List Char) :=
  match cs with
  | [] => none
  | c :: cs2 => if c = '[' then parseGridBody cs2 else none

/-! ## Frame persistence encoding

`log_to_db` (admin.py 230-234, dash_db4.py 198-202):
`frame_json = json.dumps(raw_frame_arr.tolist()).encode('utf-8')` followed by
`compressed_frame = zlib.compress(frame_json)`.  `replay_snapshot` /
`replay_thermal_snapshot` invert this with
`json.loads(zlib.decompress(raw_frame).decode('utf-8'))`.  The compressor is
an external collaborator given as an abstract `compress` / `decompress`
pair with the lossless contract supplied as a hypothesis. -/
/-- A thermal frame as serialized: a list of rows of decimal values. -/
abbrev Grid := List (List DecNum)

/-- The JSON text of a frame: `json.dumps(raw_frame_arr.tolist())`. -/
def serializeGrid (g : Grid) : String := String.mk (renderGrid g)

/-- Recover a frame from JSON text (`json.loads` on the stored encoding);
the whole input must be consumed. -/
def deserializeGrid (s : String) : Option Grid :=
  match parseGrid s.data with
  | some (g, []) => some g
  | _ => none

/-- Build the stored blob for a frame: serialize then compress
(`zlib.compress(json.dumps(arr.tolist()).encode('utf-8'))`). -/
def storeBlob (compress : String → String) (g : Grid) : String :=
  compress (serializeGrid g)

/-- Recover a frame from a stored blob: decompress then deserialize
(`json.loads(zlib.decompress(blob).decode('utf-8'))`). -/
def loadGrid (decompress : String → String) (blob : String) : Option Grid :=
  deserializeGrid (decompress blob)

/-! ## Grid statistics

`sensor_reading_thread` computes
`{'max': float(np.max(frame_arr)), 'avg': float(np.mean(frame_arr)),
'min': float(np.min(frame_arr))}` from the accepted frame. -/
/-- All values of a grid, as rationals. -/
def gridVals (g : Grid) : List ℚ := (g.map (fun r => r.map DecNum.toRat)).flatten

/-- Maximum of a list of rationals (`np.max`; 0 on the empty list, which
never arises for a 24×32 frame). -/
def listMax : List ℚ → ℚ
  | [] => 0
  | x :: xs => xs.foldl max x

/-- Minimum of a list of rationals (`np.min`). -/
def listMin : List ℚ → ℚ
  | [] => 0
  | x :: xs => xs.foldl min x

/-- Maximum pixel value of a frame (`np.max(frame_arr)`). -/
def gridMax (g : Grid) : ℚ := listMax (gridVals g)

/-- Minimum pixel value of a frame (`np.min(frame_arr)`). -/
def gridMin (g : Grid) : ℚ := listMin (gridVals g)

/-- Mean pixel value of a frame (`np.mean(frame_arr)`). -/
def gridAvg (g : Grid) : ℚ := (gridVals g).sum / ((gridVals g).length : ℚ)

/-- The scalar stats dict built from an accepted frame. -/
structure ThermalStats where
  max : ℚ
  avg : ℚ
  min : ℚ
deriving DecidableEq, Repr

/-- The `thermal_stats_for_db` dict of `sensor_reading_thread`. -/
def mkStats (g : Grid) : ThermalStats := ⟨gridMax g, gridAvg g, gridMin g⟩

/-! ## Durable store

Tables from `init_db`:
`dht_readings(timestamp, sensor_id, temp, humidity)` and
`thermal_data(timestamp, max_temp, avg_temp, min_temp, raw_frame)`. -/
/-- One row of `dht_readings`. -/
structure DhtRow where
  timestamp : Nat
  sensor_id : Nat
  temp : ℚ
  humidity : Option ℚ
deriving DecidableEq, Repr

/-- One row of `thermal_data`. -/
structure ThermalRow where
  timestamp : Nat
  max_temp : ℚ
  avg_temp : ℚ
  min_temp : ℚ
  raw_frame : String
deriving DecidableEq, Repr

/-- The durable store (append-only in the modelled paths). -/
structure Db where
  dht_readings : List DhtRow
  thermal_data : List ThermalRow
deriving DecidableEq, Repr

/-- `log_to_db(timestamp, dht_results, thermal_stats, raw_frame_arr)`
(dash_db4.py 190-206, admin.py 222-238): one `dht_readings` row per probe
with a non-null temperature, and — when both the stats dict and the frame
are present — one `thermal_data` row holding the three scalar stats and
the compressed serialized frame. -/
def log_to_db (compress : String → String) (timestamp : Nat)
    (dht_results : List (Option ℚ × Option ℚ))
    (thermal_stats : Option ThermalStats) (raw_frame_arr : Option Grid)
    (db : Db) : Db :=
  let dhtRows := dht_results.enum.filterMap (fun p =>
    match p.2.1 with
    | some t => some (⟨timestamp, p.1 + 1, t, p.2.2⟩ : DhtRow)
    | none => none)
  let db1 : Db := { db with dht_readings := db.dht_readings ++ dhtRows }
  match thermal_stats, raw_frame_arr with
  | some stats, some g =>
    { db1 with thermal_data := db1.thermal_data ++
        [⟨timestamp, stats.max, stats.avg, stats.min, storeBlob compress g⟩] }
  | _, _ => db1

/-! ## Ring histories

Every in-memory history stream is a `collections.deque(maxlen=MAX_HISTORY)`
(`create_history` for the four probes; the `mlx_stats` deques for the
thermal stream). -/
/-- Capacity of every history deque (`MAX_HISTORY = 100`). -/
def MAX_HISTORY : Nat := 100

/-- Append to a `collections.deque(maxlen = cap)`: the buffer keeps only
the last `cap` elements, evicting from the left. -/
def ringAppend (cap : Nat) (h : List α) (x : α) : List α :=
  if h.length < cap then h ++ [x] else (h ++ [x]).drop ((h ++ [x]).length - cap)

/-- One probe's in-memory history (`create_history`): three parallel
deques capped at `MAX_HISTORY`. -/
structure ProbeHist where
  time : List Nat
  temp : List ℚ
  hum : List ℚ
deriving DecidableEq, Repr

/-- `create_history()` builds three fresh empty capped deques. -/
def create_history : ProbeHist := ⟨[], [], []⟩

/-- The `mlx_stats` entry of `latest_data`: four parallel capped deques. -/
structure MlxStats where
  time : List Nat
  min : List ℚ
  max : List ℚ
  avg : List ℚ
deriving DecidableEq, Repr

/-! ## Acquisition cycle (thermal segment)

The thermal-camera portion of one pass of `sensor_reading_thread`'s loop
body followed by the rate-limited persistence step (dash_db4.py 256-281,
admin.py 294-319). -/
/-- The DB write rate limit (`DB_LOG_INTERVAL = 2.0` seconds). -/
def DB_LOG_INTERVAL : ℚ := 2

/-- The thermal-relevant slice of `latest_data` plus the persistence state
carried across loop iterations by `sensor_reading_thread`. -/
structure AcqState where
  mlx_frame : Grid
  mlx_stats : MlxStats
  db : Db
  last_db_log_time : ℚ
deriving DecidableEq, Repr

/-- The persistence step at the bottom of the loop body:
`if (current_time - last_db_log_time) > DB_LOG_INTERVAL: log_to_db(...);
last_db_log_time = current_time`. -/
def dbLogStep (compress : String → String) (now : ℚ) (dbts : Nat)
    (dht_results : List (Option ℚ × Option ℚ))
    (thermal_stats : Option ThermalStats) (raw_frame_arr : Option Grid)
    (s : AcqState) : AcqState :=
  if now - s.last_db_log_time > DB_LOG_INTERVAL then
    { s with
      db := log_to_db compress dbts dht_results thermal_stats raw_frame_arr s.db
      last_db_log_time := now }
  else s

/-- One pass of the thermal-acquisition + persistence segment of the loop
body, for a device with a thermal camera.  `now` is `time.monotonic()` at
the top of the cycle, `tick` the wall-clock instant used for history
appends, `dbts` the wall-clock instant for DB rows, `mlxRead` the outcome
of `mlx.getFrame` (`none` when the read raised), and `latest_dht_results`
the probe readings carried over from the DHT block.  A frame whose maximum
exceeds 150 hits `time.sleep(0.1); continue`, which abandons the whole
rest of the cycle, including the persistence step. -/
def thermalCycle (compress : String → String) (now : ℚ) (tick dbts : Nat)
    (latest_dht_results : List (Option ℚ × Option ℚ))
    (mlxRead : Option Grid) (s : AcqState) : AcqState :=
  match mlxRead with
  | some frame =>
    if gridMax frame > 150 then s
    else
      let stats := mkStats frame
      let s1 : AcqState :=
        { s with
          mlx_frame := frame
          mlx_stats :=
            { time := ringAppend MAX_HISTORY s.mlx_stats.time tick
              min := ringAppend MAX_HISTORY s.mlx_stats.min stats.min
              max := ringAppend MAX_HISTORY s.mlx_stats.max stats.max
              avg := ringAppend MAX_HISTORY s.mlx_stats.avg stats.avg } }
      dbLogStep compress now dbts latest_dht_results (some stats) (some frame) s1
  | none => dbLogStep compress now dbts latest_dht_results none none s

/-! ## Replay lookup

`replay_snapshot` (admin.py 776-796) / `replay_thermal_snapshot`
(dash_db4.py 688-734) run
`SELECT raw_frame, timestamp FROM thermal_data WHERE timestamp >= ?
ORDER BY timestamp ASC LIMIT 1` and decode the blob; any failure path
returns the explicit not-found result ("No Data"). -/
/-- Row with the smaller timestamp (first one wins ties), the comparator
underlying `ORDER BY timestamp ASC LIMIT 1`. -/
def minRow (a b : ThermalRow) : ThermalRow :=
  if b.timestamp < a.timestamp then b else a

/-- The SQL lookup: among rows with `timestamp >= target`, one with the
minimum timestamp; `none` when no row qualifies. -/
def replayQuery (rows : List ThermalRow) (target : Nat) : Option ThermalRow :=
  match rows.filter (fun r => target ≤ r.timestamp) with
  | [] => none
  | r :: rs => some (rs.foldl minRow r)

/-- The replay callback: query, decompress, deserialize; `none` models the
"No Data" / "Select a row" outcome.  On success it returns the decoded
grid and the actual row timestamp shown in the info panel. -/
def replay_snapshot (decompress : String → String) (rows : List ThermalRow)
    (target : Nat) : Option (Grid × Nat) :=
  match replayQuery rows target with
  | none => none
  | some r =>
    match loadGrid decompress r.raw_frame with
    | some g => some (g, r.timestamp)
    | none => none

/-! ## Alert evaluator

The alert-evaluation slice of the `update_dashboard` callback
(dash_db4.py 525-589; the same logic appears in secure_dashboard7.py
425-503).  It is pure in all inputs except the module-global cooldown
timestamp `last_alert_time`, which we pass in and return. -/
/-- The `ALERT_COOLDOWN` period in seconds (environment default 300). -/
def ALERT_COOLDOWN : ℚ := 300

/-- The active alert source radio value (`'dht'` or `'thermal'`). -/
inductive AlertSource
  | dht
  | thermal
deriving DecidableEq, Repr

/-- The thermal trigger mode dropdown value (`'max'` or `'avg'`). -/
inductive ThermalMode
  | max
  | avg
deriving DecidableEq, Repr

/-- `thermal_mode.upper()` as used in the trigger string. -/
def modeUpper : ThermalMode → String
  | ThermalMode.max => "MAX"
  | ThermalMode.avg => "AVG"

/-- Round to the nearest integer, ties to even — the rounding used when a
float is formatted with `f"{x:.1f}"` (applied to `x * 10`). -/
def roundHalfEven (q : ℚ) : Int :=
  let f := ⌊q⌋
  if q - f < 1 / 2 then f
  else if q - f > 1 / 2 then f + 1
  else if f % 2 = 0 then f else f + 1

/-- Python `f"{x:.1f}"`: the value with exactly one fraction digit. -/
def fmt1 (q : ℚ) : String :=
  String.mk (renderDec ⟨roundHalfEven (q * 10), 1⟩)

/-- Python `int()` truncation toward zero, used in the cooldown message. -/
def pyInt (q : ℚ) : Int := if q < 0 then -⌊-q⌋ else ⌊q⌋

/-- The structural email check:
`email_addr and "@" in email_addr and "." in email_addr`. -/
def validEmail (email_addr : String) : Bool :=
  email_addr != "" && email_addr.data.contains '@' && email_addr.data.contains '.'

/-- `ns_i or "S{i}"`: an empty label falls back to the literal default. -/
def sensorName (ns d : String) : String :=
  if ns = "" then d else ns

/-- Accumulator of the `for i in range(1, 5)` probe loop. -/
structure ProbeAcc where
  triggers : List String
  failed : List (Nat × String)
  tempAlert : Bool
  humAlert : Bool
deriving DecidableEq, Repr

/-- One iteration of the probe loop (dash_db4.py 546-565): temperature
against the single upper bound, then humidity against the `[min,max]` band
(low checked first, high only otherwise); any hit appends a labeled
trigger and marks the probe failed. -/
def evalProbe (dht_temp_lim : ℚ) (dht_hum_min dht_hum_max : Option ℚ)
    (acc : ProbeAcc) (p : Nat × Option ℚ × Option ℚ × String) : ProbeAcc :=
  let i := p.1
  let t_val := p.2.1
  let h_val := p.2.2.1
  let s_name := p.2.2.2
  let tRes : List String × Bool :=
    match t_val with
    | some t =>
      if t > dht_temp_lim then ([s_name ++ " Exhaust Temp: " ++ fmt1 t ++ "C"], true)
      else ([], false)
    | none => ([], false)
  let hRes : List String × Bool :=
    match h_val, dht_hum_min, dht_hum_max with
    | some h, some lo, some hi =>
      if h < lo then ([s_name ++ " Low Humidity: " ++ fmt1 h ++ "%"], true)
      else if h > hi then ([s_name ++ " High Humidity: " ++ fmt1 h ++ "%"], true)
      else ([], false)
    | _, _, _ => ([], false)
  { triggers := acc.triggers ++ tRes.1 ++ hRes.1
    failed := acc.failed ++ (if tRes.2 || hRes.2 then [(i, s_name)] else [])
    tempAlert := acc.tempAlert || tRes.2
    humAlert := acc.humAlert || hRes.2 }

/-- The trigger lists and category flags produced by one evaluation. -/
structure TrigOut where
  triggers : List String
  failed_sensors : List (Nat × String)
  is_dht_temp_alert : Bool
  is_dht_hum_alert : Bool
  is_thermal_alert : Bool
deriving DecidableEq, Repr

/-- The threshold-evaluation part of the tick: the probe loop runs only in
`'dht'` mode with a temperature bound configured; the thermal comparison
runs only in `'thermal'` mode with a limit configured. -/
def evalTriggers (alert_source : AlertSource)
    (dht_temp_lim dht_hum_min dht_hum_max thermal_lim : Option ℚ)
    (thermal_mode : ThermalMode) (ns1 ns2 ns3 ns4 : String)
    (t1 h1 t2 h2 t3 h3 t4 h4 : Option ℚ) (frame : Grid) : TrigOut :=
  let probes : List (Nat × Option ℚ × Option ℚ × String) :=
    [(1, t1, h1, sensorName ns1 "S1"), (2, t2, h2, sensorName ns2 "S2"),
     (3, t3, h3, sensorName ns3 "S3"), (4, t4, h4, sensorName ns4 "S4")]
  let pacc : ProbeAcc :=
    match alert_source with
    | AlertSource.dht =>
      match dht_temp_lim with
      | some lim => probes.foldl (evalProbe lim dht_hum_min dht_hum_max) ⟨[], [], false, false⟩
      | none => ⟨[], [], false, false⟩
    | AlertSource.thermal => ⟨[], [], false, false⟩
  match alert_source with
  | AlertSource.thermal =>
    (match thermal_lim with
     | some lim =>
       let val := match thermal_mode with
         | ThermalMode.max => gridMax frame
         | ThermalMode.avg => gridAvg frame
       if val > lim then
         ⟨pacc.triggers ++ ["Thermal " ++ modeUpper thermal_mode ++ ": " ++ fmt1 val ++ "C"],
           pacc.failed, pacc.tempAlert, pacc.humAlert, true⟩
       else ⟨pacc.triggers, pacc.failed, pacc.tempAlert, pacc.humAlert, false⟩
     | none => ⟨pacc.triggers, pacc.failed, pacc.tempAlert, pacc.humAlert, false⟩)
  | AlertSource.dht => ⟨pacc.triggers, pacc.failed, pacc.tempAlert, pacc.humAlert, false⟩

/-- The outcome of the alert slice of one tick. -/
structure EvalResult where
  triggers : List String
  failed_sensors : List (Nat × String)
  is_dht_temp_alert : Bool
  is_dht_hum_alert : Bool
  is_thermal_alert : Bool
  alert_msg : String
  dispatched : Option (String × String × String)
  last_alert_time : ℚ
deriving DecidableEq, Repr

/-- The trigger/cooldown/dispatch tail of the tick (dash_db4.py 573-587):
with triggers present, dispatch happens only when
`now - last_alert_time > ALERT_COOLDOWN`; the subject line is built from
the category flags; `last_alert_time` is set to `now` right after the send
thread is spawned.  Under cooldown the status shows the remaining
seconds. -/
def dispatchStage (t : TrigOut) (email_addr : String) (now last : ℚ) : EvalResult :=
  let base : EvalResult :=
    { triggers := t.triggers
      failed_sensors := t.failed_sensors
      is_dht_temp_alert := t.is_dht_temp_alert
      is_dht_hum_alert := t.is_dht_hum_alert
      is_thermal_alert := t.is_thermal_alert
      alert_msg := ""
      dispatched := none
      last_alert_time := last }
  if t.triggers.isEmpty then base
  else
    let msg0 := "⚠️ Alert: " ++ String.intercalate ", " t.triggers
    if now - last > ALERT_COOLDOWN then
      let subject_parts : List String :=
        (if t.is_dht_temp_alert then ["AIRFLOW OVERHEAT"] else []) ++
        (if t.is_thermal_alert then ["THERMAL HOTSPOT"] else []) ++
        (if t.is_dht_hum_alert then ["HUMIDITY OUT OF RANGE"] else [])
      let subject :=
        if subject_parts.isEmpty then "SENSOR ALERT"
        else "CRITICAL: " ++ String.intercalate " + " subject_parts
      let body := "The following limits were breached:\n\n" ++
        String.intercalate "\n" t.triggers
      { base with
        alert_msg := msg0 ++ " (Email Sent)"
        dispatched := some (email_addr, subject, body)
        last_alert_time := now }
    else
      { base with
        alert_msg := msg0 ++ " (Cooldown: " ++
          toString (pyInt (ALERT_COOLDOWN - (now - last))) ++ "s)" }

/-- The alert slice of the `update_dashboard` callback: the structural
email check gates all evaluation; an invalid non-empty address produces
only the warning status. -/
def update_dashboard (alert_source : AlertSource)
    (dht_temp_lim dht_hum_min dht_hum_max thermal_lim : Option ℚ)
    (thermal_mode : ThermalMode) (email_addr : String)
    (ns1 ns2 ns3 ns4 : String)
    (t1 h1 t2 h2 t3 h3 t4 h4 : Option ℚ) (frame : Grid)
    (now last_alert_time : ℚ) : EvalResult :=
  if validEmail email_addr then
    dispatchStage
      (evalTriggers alert_source dht_temp_lim dht_hum_min dht_hum_max thermal_lim
        thermal_mode ns1 ns2 ns3 ns4 t1 h1 t2 h2 t3 h3 t4 h4 frame)
      email_addr now last_alert_time
  else
    { triggers := []
      failed_sensors := []
      is_dht_temp_alert := false
      is_dht_hum_alert := false
      is_thermal_alert := false
      alert_msg := if email_addr != "" then "⚠️ Invalid Email Address format" else ""
      dispatched := none
      last_alert_time := last_alert_time }

/-- All inputs of one evaluation tick (UI config plus the snapshot),
bundled for stating multi-tick properties. -/
structure EvalInput where
  alert_source : AlertSource
  dht_temp_lim : Option ℚ
  dht_hum_min : Option ℚ
  dht_hum_max : Option ℚ
  thermal_lim : Option ℚ
  thermal_mode : ThermalMode
  email_addr : String
  ns1 : String
  ns2 : String
  ns3 : String
  ns4 : String
  t1 : Option ℚ
  h1 : Option ℚ
  t2 : Option ℚ
  h2 : Option ℚ
  t3 : Option ℚ
  h3 : Option ℚ
  t4 : Option ℚ
  h4 : Option ℚ
  frame : Grid

/-- Run one `update_dashboard` tick from a bundled input. -/
def runTick (inp : EvalInput) (now last : ℚ) : EvalResult :=
  update_dashboard inp.alert_source inp.dht_temp_lim inp.dht_hum_min inp.dht_hum_max
    inp.thermal_lim inp.thermal_mode inp.email_addr inp.ns1 inp.ns2 inp.ns3 inp.ns4
    inp.t1 inp.h1 inp.t2 inp.h2 inp.t3 inp.h3 inp.t4 inp.h4 inp.frame now last

/-! ## History "exceeded only" filter

`load_history_data` (dash_db4.py 634-683) merges `thermal_data` with the
pivoted `dht_readings` into per-probe columns `S{i}_temp` /
`S{i}_humidity`.  With the `exceeded` checkbox on (lines 670-681) it
assembles one boolean condition per configured threshold and keeps the
rows where any condition holds. -/
/-- One row of the merged history table `df_final`.  A probe cell missing
for a row (no reading merged in; NaN in pandas) is `none`; NaN compares
false against every threshold. -/
structure HistRow where
  timestamp : Nat
  max_temp : Option ℚ
  avg_temp : Option ℚ
  min_temp : Option ℚ
  s1_temp : Option ℚ
  s1_humidity : Option ℚ
  s2_temp : Option ℚ
  s2_humidity : Option ℚ
  s3_temp : Option ℚ
  s3_humidity : Option ℚ
  s4_temp : Option ℚ
  s4_humidity : Option ℚ
deriving DecidableEq, Repr

/-- Pandas `series > limit` on one cell (NaN gives false). -/
def cellGT (c : Option ℚ) (lim : ℚ) : Bool :=
  match c with
  | some v => decide (v > lim)
  | none => false

/-- Pandas `series < limit` on one cell (NaN gives false). -/
def cellLT (c : Option ℚ) (lim : ℚ) : Bool :=
  match c with
  | some v => decide (v < lim)
  | none => false

/-- Python truthiness of a numeric UI input (`if thermal_limit:`): `None`
and `0` are falsy. -/
def truthy : Option ℚ → Bool
  | none => false
  | some x => !(decide (x = 0))

/-- The OR of all configured conditions for one row: thermal `max_temp`
over its limit, each probe temperature over the shared limit, each probe
humidity outside the `[hum_min, hum_max]` band. -/
def rowExceeds (thermal_limit dht_limit hum_min hum_max : Option ℚ)
    (r : HistRow) : Bool :=
  (truthy thermal_limit && cellGT r.max_temp (thermal_limit.getD 0)) ||
  (truthy dht_limit &&
    (cellGT r.s1_temp (dht_limit.getD 0) || cellGT r.s2_temp (dht_limit.getD 0) ||
     cellGT r.s3_temp (dht_limit.getD 0) || cellGT r.s4_temp (dht_limit.getD 0))) ||
  ((truthy hum_min && truthy hum_max) &&
    ((cellLT r.s1_humidity (hum_min.getD 0) || cellGT r.s1_humidity (hum_max.getD 0)) ||
     (cellLT r.s2_humidity (hum_min.getD 0) || cellGT r.s2_humidity (hum_max.getD 0)) ||
     (cellLT r.s3_humidity (hum_min.getD 0) || cellGT r.s3_humidity (hum_max.getD 0)) ||
     (cellLT r.s4_humidity (hum_min.getD 0) || cellGT r.s4_humidity (hum_max.getD 0))))

/-- The `exceeded_only` filter: when at least one condition is configured
(`if conditions:`), keep the rows where some condition holds; with no
condition configured the table is returned unfiltered. -/
def filterExceeded (thermal_limit dht_limit hum_min hum_max : Option ℚ)
    (df : List HistRow) : List HistRow :=
  if truthy thermal_limit || truthy dht_limit || (truthy hum_min && truthy hum_max) then
    df.filter (rowExceeds thermal_limit dht_limit hum_min hum_max)
  else df

theorem digitsLenAux_congr (f1 : Nat) : ∀ f2 n, n ≤ f1 → n ≤ f2 →
    digitsLenAux f1 n = digitsLenAux f2 n := by
  induction f1 with
  | zero =>
    intro f2 n h1 _
    have hn : n = 0 := by omega
    subst hn
    cases f2 with
    | zero => rfl
    | succ f2 => simp [digitsLenAux]
  | succ f ih =>
    intro f2 n h1 h2
    cases f2 with
    | zero =>
      have hn : n = 0 := by omega
      subst hn
      simp [digitsLenAux]
    | succ f2 =>
      by_cases hn : n < 10
      · simp [digitsLenAux, hn]
      · have hdiv : n / 10 < n := Nat.div_lt_self (by omega) (by omega)
        rw [digitsLenAux, digitsLenAux, if_neg hn, if_neg hn,
          ih f2 (n / 10) (by omega) (by omega)]

theorem digitsLen_eq (n : Nat) : digitsLen n = if n < 10 then 1 else digitsLen (n / 10) + 1 := by
  by_cases hn : n < 10
  · rw [if_pos hn]
    cases n with
    | zero => rfl
    | succ m => rw [digitsLen, digitsLenAux, if_pos hn]
  · rw [if_neg hn]
    cases n with
    | zero => omega
    | succ m =>
      rw [digitsLen, digitsLenAux, if_neg hn, digitsLen]
      have hdiv : (m + 1) / 10 < m + 1 := Nat.div_lt_self (by omega) (by omega)
      rw [digitsLenAux_congr m ((m + 1) / 10) ((m + 1) / 10) (by omega) (by omega)]

theorem digitCh_toNat {d : Nat} (h : d < 10) : (digitCh d).toNat = 48 + d := by
  interval_cases d <;> rfl

theorem isDigitC_digitCh {d : Nat} (h : d < 10) : isDigitC (digitCh d) = true := by
  interval_cases d <;> rfl

theorem digitCh_val {d : Nat} (h : d < 10) : (digitCh d).toNat - 48 = d := by
  rw [digitCh_toNat h]; omega

theorem lt_pow_digitsLen (n : Nat) : n < 10 ^ digitsLen n := by
  induction n using Nat.strong_induction_on with
  | _ n ih =>
    rw [digitsLen_eq]
    split
    · simpa using ‹n < 10›
    · have h10 : 10 ≤ n := by omega
      have hdiv : n / 10 < n := Nat.div_lt_self (by omega) (by omega)
      have := ih (n / 10) hdiv
      have : n < 10 ^ digitsLen (n / 10) * 10 := by
        have hmod := Nat.div_add_mod n 10
        have hlt : n % 10 < 10 := Nat.mod_lt _ (by omega)
        calc n = 10 * (n / 10) + n % 10 := hmod.symm
          _ < 10 * (n / 10) + 10 := by omega
          _ = (n / 10 + 1) * 10 := by ring
          _ ≤ 10 ^ digitsLen (n / 10) * 10 := by
              have : n / 10 + 1 ≤ 10 ^ digitsLen (n / 10) := this
              exact Nat.mul_le_mul_right _ this
      simpa [pow_succ] using this

theorem parseDigitsCnt_renderFixed (w : Nat) :
    ∀ v acc cnt rest, v < 10 ^ w →
      parseDigitsCnt (renderFixed w v ++ rest) acc cnt =
        parseDigitsCnt rest (acc * 10 ^ w + v) (cnt + w) := by
  induction w with
  | zero =>
    intro v acc cnt rest hv
    have hv0 : v = 0 := by simpa using hv
    simp [renderFixed, hv0]
  | succ w ih =>
    intro v acc cnt rest hv
    have hdivlt : v / 10 < 10 ^ w := by
      rw [Nat.div_lt_iff_lt_mul (by omega)]
      calc v < 10 ^ (w + 1) := hv
        _ = 10 ^ w * 10 := by rw [pow_succ]
    have hmodlt : v % 10 < 10 := Nat.mod_lt _ (by omega)
    calc parseDigitsCnt (renderFixed (w + 1) v ++ rest) acc cnt
        = parseDigitsCnt (renderFixed w (v / 10) ++ (digitCh (v % 10) :: rest)) acc cnt := by
          simp [renderFixed]
      _ = parseDigitsCnt (digitCh (v % 10) :: rest) (acc * 10 ^ w + v / 10) (cnt + w) :=
          ih (v / 10) acc cnt _ hdivlt
      _ = parseDigitsCnt rest ((acc * 10 ^ w + v / 10) * 10 + (v % 10)) (cnt + w + 1) := by
          rw [parseDigitsCnt, if_pos (isDigitC_digitCh hmodlt), digitCh_val hmodlt]
      _ = parseDigitsCnt rest (acc * 10 ^ (w + 1) + v) (cnt + (w + 1)) := by
          have harith : (acc * 10 ^ w + v / 10) * 10 + v % 10 = acc * 10 ^ (w + 1) + v := by
            calc (acc * 10 ^ w + v / 10) * 10 + v % 10
                = acc * (10 ^ w * 10) + (10 * (v / 10) + v % 10) := by ring
              _ = acc * 10 ^ (w + 1) + v := by rw [Nat.div_add_mod, pow_succ]
          rw [harith, Nat.add_assoc]

theorem parseDigitsCnt_stop {rest : List Char} (h : noDigitHead rest = true)
    (acc cnt : Nat) : parseDigitsCnt rest acc cnt = (acc, cnt, rest) := by
  cases rest with
  | nil => rfl
  | cons c cs =>
    have : isDigitC c = false := by simpa [noDigitHead] using h
    simp [parseDigitsCnt, this]

theorem renderFixed_cons (w : Nat) :
    ∀ v, 0 < w → ∃ d t, renderFixed w v = digitCh d :: t ∧ d < 10 := by
  induction w with
  | zero => intro v h; omega
  | succ w ih =>
    intro v _
    cases Nat.eq_zero_or_pos w with
    | inl h0 =>
      refine ⟨v % 10, [], ?_, Nat.mod_lt _ (by omega)⟩
      simp [h0, renderFixed]
    | inr hpos =>
      obtain ⟨d, t, ht, hd⟩ := ih (v / 10) hpos
      exact ⟨d, t ++ [digitCh (v % 10)], by simp [renderFixed, ht], hd⟩

theorem renderNat_cons (n : Nat) :
    ∃ d t, renderNat n = digitCh d :: t ∧ d < 10 := by
  have h1 : 0 < digitsLen n := by
    rw [digitsLen_eq]; split <;> omega
  obtain ⟨d, t, ht, hd⟩ := renderFixed_cons (digitsLen n) n h1
  exact ⟨d, t, ht, hd⟩

theorem parseDigitsCnt_renderNat (n : Nat) (acc cnt : Nat) (rest : List Char) :
    parseDigitsCnt (renderNat n ++ rest) acc cnt =
      parseDigitsCnt rest (acc * 10 ^ digitsLen n + n) (cnt + digitsLen n) :=
  parseDigitsCnt_renderFixed (digitsLen n) n acc cnt rest (lt_pow_digitsLen n)

theorem sepHead_noDigitHead {rest : List Char} (h : sepHead rest = true) :
    noDigitHead rest = true := by
  cases rest with
  | nil => rfl
  | cons c cs =>
    simp only [sepHead, Bool.and_eq_true] at h
    simpa [noDigitHead] using h.1

theorem digitsLen_pos (n : Nat) : 0 < digitsLen n := by
  rw [digitsLen_eq]; split <;> omega

theorem parseFrac_sep (ip : Nat) {rest : List Char} (hsep : sepHead rest = true) :
    parseFrac ip rest = some (ip, 0, rest) := by
  cases rest with
  | nil => rfl
  | cons c r2 =>
    have hc : (c = '.') = False := by
      simp only [sepHead, Bool.and_eq_true, bne_iff_ne, ne_eq] at hsep
      simp [hsep.2]
    simp [parseFrac, hc]

theorem parseUNum_renderUDec (m e : Nat) (rest : List Char)
    (hsep : sepHead rest = true) :
    parseUNum (renderUDec m e ++ rest) = some (m, e, rest) := by
  by_cases he : e = 0
  · subst he
    rw [renderUDec, if_pos rfl, parseUNum, parseDigitsCnt_renderNat,
      parseDigitsCnt_stop (sepHead_noDigitHead hsep)]
    simp only [Nat.zero_mul, Nat.zero_add]
    rw [if_neg (by have := digitsLen_pos m; omega)]
    exact parseFrac_sep m hsep
  · have hepos : 0 < e := Nat.pos_of_ne_zero he
    have hmodlt : m % 10 ^ e < 10 ^ e := Nat.mod_lt _ (Nat.pos_pow_of_pos e (by omega))
    have hdot : noDigitHead ('.' :: (renderFixed e (m % 10 ^ e) ++ rest)) = true := by rfl
    rw [renderUDec, if_neg he, List.append_assoc, List.cons_append, parseUNum,
      parseDigitsCnt_renderNat, parseDigitsCnt_stop hdot]
    simp only [Nat.zero_mul, Nat.zero_add]
    rw [if_neg (by have := digitsLen_pos (m / 10 ^ e); omega)]
    show parseFrac (m / 10 ^ e) ('.' :: (renderFixed e (m % 10 ^ e) ++ rest)) = _
    rw [parseFrac, if_pos rfl, parseDigitsCnt_renderFixed e _ 0 0 rest hmodlt,
      parseDigitsCnt_stop (sepHead_noDigitHead hsep)]
    simp only [Nat.zero_mul, Nat.zero_add]
    rw [if_neg (by omega)]
    have hm : m / 10 ^ e * 10 ^ e + m % 10 ^ e = m := by
      rw [Nat.mul_comm]; exact Nat.div_add_mod m (10 ^ e)
    rw [hm]

theorem renderUDec_cons (m e : Nat) :
    ∃ d t, renderUDec m e = digitCh d :: t ∧ d < 10 := by
  by_cases he : e = 0
  · subst he
    obtain ⟨d, t, ht, hd⟩ := renderNat_cons m
    exact ⟨d, t, by rw [renderUDec, if_pos rfl, ht], hd⟩
  · obtain ⟨d, t, ht, hd⟩ := renderNat_cons (m / 10 ^ e)
    refine ⟨d, t ++ '.' :: renderFixed e (m % 10 ^ e), ?_, hd⟩
    rw [renderUDec, if_neg he, ht]
    simp

theorem digitCh_ne_dash {d : Nat} (h : d < 10) : digitCh d ≠ '-' := by
  interval_cases d <;> decide

theorem parseDec_renderDec (v : DecNum) (rest : List Char)
    (hsep : sepHead rest = true) :
    parseDec (renderDec v ++ rest) = some (v, rest) := by
  by_cases hm : v.m < 0
  · rw [renderDec, if_pos hm, List.cons_append, parseDec, if_pos rfl,
      parseUNum_renderUDec v.m.natAbs v.e rest hsep]
    show some ((⟨-((v.m.natAbs : Nat) : Int), v.e⟩ : DecNum), rest) = some (v, rest)
    rw [show -((v.m.natAbs : Nat) : Int) = v.m by omega]
  · obtain ⟨d, t, ht, hd⟩ := renderUDec_cons v.m.toNat v.e
    have hpu := parseUNum_renderUDec v.m.toNat v.e rest hsep
    rw [ht, List.cons_append] at hpu
    rw [renderDec, if_neg hm, ht, List.cons_append, parseDec,
      if_neg (digitCh_ne_dash hd), hpu]
    show some ((⟨((v.m.toNat : Nat) : Int), v.e⟩ : DecNum), rest) = some (v, rest)
    rw [show ((v.m.toNat : Nat) : Int) = v.m by omega]

theorem renderDec_cons (v : DecNum) :
    ∃ c t, renderDec v = c :: t ∧ (isDigitC c = true ∨ c = '-') := by
  by_cases hm : v.m < 0
  · exact ⟨'-', renderUDec v.m.natAbs v.e, by rw [renderDec, if_pos hm], Or.inr rfl⟩
  · obtain ⟨d, t, ht, hd⟩ := renderUDec_cons v.m.toNat v.e
    exact ⟨digitCh d, t, by rw [renderDec, if_neg hm, ht],
      Or.inl (isDigitC_digitCh hd)⟩

theorem renderDecList_cons_cons (v v2 : DecNum) (vs : List DecNum) :
    renderDecList (v :: v2 :: vs) =
      renderDec v ++ ',' :: ' ' :: renderDecList (v2 :: vs) := by
  rw [renderDecList]

theorem renderDecList_single (v : DecNum) :
    renderDecList [v] = renderDec v := by
  rw [renderDecList]
  simp

theorem renderDecList_length_ge (r : List DecNum) :
    r.length ≤ (renderDecList r).length := by
  induction r with
  | nil => simp [renderDecList]
  | cons v vs ih =>
    obtain ⟨c, t, ht, _⟩ := renderDec_cons v
    cases vs with
    | nil => simp [renderDecList_single, ht]
    | cons v2 vs2 =>
      rw [renderDecList_cons_cons, ht]
      simp only [List.length_cons, List.length_append] at ih ⊢
      omega

theorem parseDecListAux_render (r : List DecNum) (hne : r ≠ []) :
    ∀ fuel acc rest, r.length ≤ fuel →
      parseDecListAux fuel (renderDecList r ++ ']' :: rest) acc = some (acc ++ r, rest) := by
  induction r with
  | nil => exact absurd rfl hne
  | cons v vs ih =>
    intro fuel acc rest hfuel
    obtain ⟨f, rfl⟩ : ∃ f, fuel = f + 1 := by
      cases fuel with
      | zero => simp at hfuel
      | succ f => exact ⟨f, rfl⟩
    cases vs with
    | nil =>
      have hp := parseDec_renderDec v (']' :: rest) (by rfl)
      rw [renderDecList_single, parseDecListAux, hp]
      simp
    | cons v2 vs2 =>
      have hlist : renderDecList (v :: v2 :: vs2) ++ ']' :: rest
          = renderDec v ++ (',' :: ' ' :: (renderDecList (v2 :: vs2) ++ ']' :: rest)) := by
        rw [renderDecList_cons_cons]
        simp
      have hp := parseDec_renderDec v
        (',' :: ' ' :: (renderDecList (v2 :: vs2) ++ ']' :: rest)) (by rfl)
      rw [hlist, parseDecListAux, hp]
      have hcomma : (',' = ']') = False := by simp
      have hfuel2 : (v2 :: vs2).length ≤ f := by
        simp only [List.length_cons] at hfuel ⊢
        omega
      simp only [hcomma, if_false, if_pos rfl, if_true]
      rw [ih (List.cons_ne_nil v2 vs2) f (acc ++ [v]) rest hfuel2]
      simp

theorem parseRow_renderRow (r : List DecNum) (rest : List Char) :
    parseRow (renderRow r ++ rest) = some (r, rest) := by
  cases r with
  | nil => simp [renderRow, renderDecList, parseRow, parseRowBody]
  | cons v vs =>
    have hshape : renderRow (v :: vs) ++ rest
        = '[' :: (renderDecList (v :: vs) ++ ']' :: rest) := by
      rw [renderRow]; simp
    rw [hshape, parseRow, if_pos rfl]
    obtain ⟨c, t, ht, hc⟩ := renderDec_cons v
    obtain ⟨t2, ht2⟩ : ∃ t2, renderDecList (v :: vs) = c :: t2 := by
      cases vs with
      | nil => exact ⟨t, by rw [renderDecList_single, ht]⟩
      | cons v2 vs2 =>
        refine ⟨t ++ ',' :: ' ' :: renderDecList (v2 :: vs2), ?_⟩
        rw [renderDecList_cons_cons, ht]
        simp
    have hcne : ¬(c = ']') := by
      intro hco
      rcases hc with hdig | hdash
      · rw [hco] at hdig; exact absurd hdig (by decide)
      · rw [hco] at hdash; exact absurd hdash (by decide)
    have hbody : renderDecList (v :: vs) ++ ']' :: rest = c :: (t2 ++ ']' :: rest) := by
      rw [ht2]; simp
    rw [hbody, parseRowBody, if_neg hcne]
    have hfuel : (v :: vs).length ≤ (c :: (t2 ++ ']' :: rest)).length + 1 := by
      have h1 := renderDecList_length_ge (v :: vs)
      rw [ht2] at h1
      simp only [List.length_cons, List.length_append] at h1 ⊢
      omega
    rw [← hbody]
    rw [parseDecListAux_render (v :: vs) (List.cons_ne_nil v vs) _ [] rest
      (by rw [hbody]; exact hfuel)]
    simp

theorem renderRowList_cons_cons (r r2 : List DecNum) (rs : List (List DecNum)) :
    renderRowList (r :: r2 :: rs) =
      renderRow r ++ ',' :: ' ' :: renderRowList (r2 :: rs) := by
  rw [renderRowList]

theorem renderRowList_single (r : List DecNum) :
    renderRowList [r] = renderRow r := by
  rw [renderRowList]
  simp

theorem renderRowList_length_ge (g : List (List DecNum)) :
    g.length ≤ (renderRowList g).length := by
  induction g with
  | nil => simp [renderRowList]
  | cons r rs ih =>
    cases rs with
    | nil =>
      rw [renderRowList_single, renderRow]
      simp
    | cons r2 rs2 =>
      rw [renderRowList_cons_cons, renderRow]
      simp only [List.length_cons, List.length_append] at ih ⊢
      omega

theorem parseRowListAux_render (g : List (List DecNum)) (hne : g ≠ []) :
    ∀ fuel acc rest, g.length ≤ fuel →
      parseRowListAux fuel (renderRowList g ++ ']' :: rest) acc = some (acc ++ g, rest) := by
  induction g with
  | nil => exact absurd rfl hne
  | cons r rs ih =>
    intro fuel acc rest hfuel
    obtain ⟨f, rfl⟩ : ∃ f, fuel = f + 1 := by
      cases fuel with
      | zero => simp at hfuel
      | succ f => exact ⟨f, rfl⟩
    cases rs with
    | nil =>
      have hp := parseRow_renderRow r (']' :: rest)
      rw [renderRowList_single, parseRowListAux, hp]
      simp
    | cons r2 rs2 =>
      have hlist : renderRowList (r :: r2 :: rs2) ++ ']' :: rest
          = renderRow r ++ (',' :: ' ' :: (renderRowList (r2 :: rs2) ++ ']' :: rest)) := by
        rw [renderRowList_cons_cons]
        simp
      have hp := parseRow_renderRow r (',' :: ' ' :: (renderRowList (r2 :: rs2) ++ ']' :: rest))
      rw [hlist, parseRowListAux, hp]
      have hcomma : (',' = ']') = False := by simp
      have hfuel2 : (r2 :: rs2).length ≤ f := by
        simp only [List.length_cons] at hfuel ⊢
        omega
      simp only [hcomma, if_false, if_pos rfl, if_true]
      rw [ih (List.cons_ne_nil r2 rs2) f (acc ++ [r]) rest hfuel2]
      simp

theorem parseGrid_renderGrid (g : List (List DecNum)) (rest : List Char) :
    parseGrid (renderGrid g ++ rest) = some (g, rest) := by
  cases g with
  | nil => simp [renderGrid, renderRowList, parseGrid, parseGridBody]
  | cons r rs =>
    have hshape : renderGrid (r :: rs) ++ rest
        = '[' :: (renderRowList (r :: rs) ++ ']' :: rest) := by
      rw [renderGrid]; simp
    rw [hshape, parseGrid, if_pos rfl]
    obtain ⟨t2, ht2⟩ : ∃ t2, renderRowList (r :: rs) = '[' :: t2 := by
      cases rs with
      | nil => exact ⟨renderDecList r ++ [']'], by rw [renderRowList_single, renderRow]; simp⟩
      | cons r2 rs2 =>
        refine ⟨(renderDecList r ++ [']']) ++ ',' :: ' ' :: renderRowList (r2 :: rs2), ?_⟩
        rw [renderRowList_cons_cons, renderRow]
        simp
    have hbody : renderRowList (r :: rs) ++ ']' :: rest = '[' :: (t2 ++ ']' :: rest) := by
      rw [ht2]; simp
    rw [hbody, parseGridBody, if_neg (by decide)]
    have hfuel : (r :: rs).length ≤ ('[' :: (t2 ++ ']' :: rest)).length + 1 := by
      have h1 := renderRowList_length_ge (r :: rs)
      rw [ht2] at h1
      simp only [List.length_cons, List.length_append] at h1 ⊢
      omega
    rw [← hbody]
    rw [parseRowListAux_render (r :: rs) (List.cons_ne_nil r rs) _ [] rest
      (by rw [hbody]; exact hfuel)]
    simp

theorem deserializeGrid_serializeGrid (g : Grid) :
    deserializeGrid (serializeGrid g) = some g := by
  have h := parseGrid_renderGrid g []
  rw [List.append_nil] at h
  rw [serializeGrid, deserializeGrid]
  show (match parseGrid (renderGrid g) with
    | some (g, []) => some g
    | _ => none) = some g
  rw [h]

theorem ringAppend_eq_drop (cap : Nat) (h : List α) (x : α) :
    ringAppend cap h x = (h ++ [x]).drop ((h ++ [x]).length - cap) := by
  rw [ringAppend]
  split
  · rw [show (h ++ [x]).length - cap = 0 by simp; omega, List.drop_zero]
  · rfl

theorem foldl_ringAppend (cap : Nat) (xs : List α) :
    xs.foldl (ringAppend cap) [] = xs.drop (xs.length - cap) := by
  induction xs using List.reverseRecOn with
  | nil => simp
  | append_singleton xs x ih =>
    rw [List.foldl_append, List.foldl_cons, List.foldl_nil, ih,
      ringAppend_eq_drop]
    rw [← List.drop_append_of_le_length (by simp)]
    rw [List.drop_drop]
    congr 1
    simp only [List.length_append, List.length_singleton, List.length_drop]
    omega

theorem foldl_minRow_mem (rs : List ThermalRow) :
    ∀ r, rs.foldl minRow r = r ∨ rs.foldl minRow r ∈ rs := by
  induction rs with
  | nil => intro r; exact Or.inl rfl
  | cons b bs ih =>
    intro r
    rw [List.foldl_cons]
    rcases ih (minRow r b) with h | h
    · rw [h, minRow]
      split
      · exact Or.inr (List.mem_cons_self b bs)
      · exact Or.inl rfl
    · exact Or.inr (List.mem_cons_of_mem b h)

theorem foldl_minRow_le (rs : List ThermalRow) :
    ∀ r b, b ∈ r :: rs → (rs.foldl minRow r).timestamp ≤ b.timestamp := by
  induction rs with
  | nil =>
    intro r b hb
    rw [List.mem_singleton] at hb
    rw [hb]
    simp
  | cons c cs ih =>
    intro r b hb
    rw [List.foldl_cons]
    have hseed : (minRow r c).timestamp ≤ r.timestamp ∧
        (minRow r c).timestamp ≤ c.timestamp := by
      rw [minRow]
      split <;> omega
    rcases List.mem_cons.mp hb with hbr | hb2
    · rw [hbr]
      exact le_trans (ih (minRow r c) (minRow r c) (List.mem_cons_self _ _)) hseed.1
    · rcases List.mem_cons.mp hb2 with hbc | hbcs
      · rw [hbc]
        exact le_trans (ih (minRow r c) (minRow r c) (List.mem_cons_self _ _)) hseed.2
      · exact ih (minRow r c) b (List.mem_cons_of_mem _ hbcs)

theorem replayQuery_none_iff (rows : List ThermalRow) (target : Nat) :
    replayQuery rows target = none ↔ ∀ r ∈ rows, r.timestamp < target := by
  rw [replayQuery]
  constructor
  · intro h r hr
    by_contra hlt
    have hmem : r ∈ rows.filter (fun r => target ≤ r.timestamp) :=
      List.mem_filter.mpr ⟨hr, by simpa using le_of_not_lt hlt⟩
    cases hf : rows.filter (fun r => target ≤ r.timestamp) with
    | nil => rw [hf] at hmem; exact absurd hmem (List.not_mem_nil r)
    | cons a as => rw [hf] at h; exact Option.noConfusion h
  · intro h
    cases hf : rows.filter (fun r => target ≤ r.timestamp) with
    | nil => rfl
    | cons a as =>
      have hmem : a ∈ rows.filter (fun r => target ≤ r.timestamp) := by
        rw [hf]; exact List.mem_cons_self a as
      obtain ⟨hmemr, hge⟩ := List.mem_filter.mp hmem
      have := h a hmemr
      simp only [decide_eq_true_eq] at hge
      omega

theorem replayQuery_some_spec (rows : List ThermalRow) (target : Nat)
    (r : ThermalRow) (h : replayQuery rows target = some r) :
    r ∈ rows ∧ target ≤ r.timestamp ∧
      ∀ q ∈ rows, target ≤ q.timestamp → r.timestamp ≤ q.timestamp := by
  rw [replayQuery] at h
  cases hf : rows.filter (fun r => target ≤ r.timestamp) with
  | nil => rw [hf] at h; exact Option.noConfusion h
  | cons a as =>
    rw [hf] at h
    have hr : r = as.foldl minRow a := by
      injection h with h2
      exact h2.symm
    have hmem : r ∈ a :: as := by
      rw [hr]
      rcases foldl_minRow_mem as a with he | he
      · rw [he]; exact List.mem_cons_self a as
      · exact List.mem_cons_of_mem a he
    have hmemf : r ∈ rows.filter (fun r => target ≤ r.timestamp) := by
      rw [hf]; exact hmem
    obtain ⟨hrows, hge⟩ := List.mem_filter.mp hmemf
    refine ⟨hrows, by simpa using hge, ?_⟩
    intro q hq hqge
    have hqf : q ∈ a :: as := by
      rw [← hf]
      exact List.mem_filter.mpr ⟨hq, by simpa using hqge⟩
    rw [hr]
    exact foldl_minRow_le as a q hqf

/-! ## Claim theorems -/
/-- C3: for every 24×32 grid of finite temperature values, the persistence
encoding round-trips losslessly: decompressing and deserializing the blob
produced by JSON-serializing and compressing the grid reproduces exactly
the original grid, element for element, for any lossless compressor. -/
theorem c3_persistence_roundtrip (compress decompress : String → String)
    (hzlib : ∀ s, decompress (compress s) = s) (g : Grid)
    (_h24 : g.length = 24) (_h32 : ∀ r ∈ g, r.length = 32) :
    loadGrid decompress (storeBlob compress g) = some g := by
  rw [storeBlob, loadGrid, hzlib, deserializeGrid_serializeGrid]

/-- Witness for C3: a concrete 24×32 grid (all cells `36.5`) with the
identity compressor. -/
theorem c3_persistence_roundtrip_witness :
    loadGrid id (storeBlob id (List.replicate 24 (List.replicate 32 (⟨365, 1⟩ : DecNum)))) =
      some (List.replicate 24 (List.replicate 32 ⟨365, 1⟩)) :=
  c3_persistence_roundtrip id id (fun _ => rfl) _ (by simp)
    (by intro r hr; rw [List.eq_of_mem_replicate hr]; simp)

/-- C5: for every ring-history stream, the length after any sequence of
appends never exceeds `MAX_HISTORY = 100`, and appending to a full buffer
evicts exactly the oldest element: after `N + 1` appends the buffer holds
appends 2 through `N + 1` in insertion order. -/
theorem c5_ring_history_fifo {α : Type} (vs : List α) :
    (vs.foldl (ringAppend MAX_HISTORY) []).length ≤ MAX_HISTORY ∧
    (vs.length = MAX_HISTORY + 1 →
      vs.foldl (ringAppend MAX_HISTORY) [] = vs.drop 1) := by
  constructor
  · rw [foldl_ringAppend]
    simp only [List.length_drop]
    omega
  · intro hlen
    rw [foldl_ringAppend, hlen]
    rw [show MAX_HISTORY + 1 - MAX_HISTORY = 1 by omega]

/-- Witness for C5: 101 appends into an empty `MAX_HISTORY`-capped buffer
keep at most 100 elements and leave exactly appends 2..101. -/
theorem c5_ring_history_fifo_witness :
    ((List.range 101).foldl (ringAppend MAX_HISTORY) []).length ≤ MAX_HISTORY ∧
      (List.range 101).foldl (ringAppend MAX_HISTORY) [] = (List.range 101).drop 1 :=
  ⟨(c5_ring_history_fifo (List.range 101)).1,
    (c5_ring_history_fifo (List.range 101)).2 (by simp [MAX_HISTORY])⟩

/-- C1: a frame whose maximum pixel exceeds the glitch ceiling 150 is
discarded entirely — the `continue` leaves the whole acquisition state
(snapshot frame, every thermal history deque, both durable tables, and the
rate-limit clock) exactly as it was, so nothing derived from the frame
ever appears anywhere. -/
theorem c1_glitch_frame_discarded (compress : String → String) (now : ℚ)
    (tick dbts : Nat) (dht : List (Option ℚ × Option ℚ)) (frame : Grid)
    (s : AcqState) (h : gridMax frame > 150) :
    thermalCycle compress now tick dbts dht (some frame) s = s := by
  rw [thermalCycle, if_pos h]

/-- Witness for C1: a concrete one-pixel 200° frame leaves a concrete
state untouched. -/
theorem c1_glitch_frame_discarded_witness :
    thermalCycle id 10 5 5 [] (some [[⟨200, 0⟩]])
      ⟨[[⟨0, 0⟩]], ⟨[], [], [], []⟩, ⟨[], []⟩, 0⟩ =
      ⟨[[⟨0, 0⟩]], ⟨[], [], [], []⟩, ⟨[], []⟩, 0⟩ :=
  c1_glitch_frame_discarded id 10 5 5 [] [[⟨200, 0⟩]] _
    (by norm_num [gridMax, gridVals, listMax, DecNum.toRat])

/-- C6: one durable write per `DB_LOG_INTERVAL`: a write that executes at
time `t` records `t` as the last-write time, and then every call to the
persistence path at any time up to `t + DB_LOG_INTERVAL` is a no-op — no
rows are inserted and the state is unchanged — even if the loop reaches
the logging step on every cycle. -/
theorem c6_db_rate_limit (compress : String → String) (dbts : Nat) (t : ℚ)
    (s0 : AcqState) (hlast : s0.last_db_log_time = t)
    (calls : List (ℚ × List (Option ℚ × Option ℚ) × Option ThermalStats × Option Grid))
    (hwithin : ∀ c ∈ calls, c.1 ≤ t + DB_LOG_INTERVAL) :
    (∀ (now : ℚ) (dres : List (Option ℚ × Option ℚ)) (tst : Option ThermalStats)
        (frm : Option Grid) (s : AcqState),
      now - s.last_db_log_time > DB_LOG_INTERVAL →
        (dbLogStep compress now dbts dres tst frm s).last_db_log_time = now) ∧
    calls.foldl (fun s c => dbLogStep compress c.1 dbts c.2.1 c.2.2.1 c.2.2.2 s) s0 = s0 := by
  constructor
  · intro now dres tst frm s hgt
    rw [dbLogStep, if_pos hgt]
  · induction calls with
    | nil => rfl
    | cons c cs ih =>
      rw [List.foldl_cons]
      have hc := hwithin c (List.mem_cons_self c cs)
      have hstep : dbLogStep compress c.1 dbts c.2.1 c.2.2.1 c.2.2.2 s0 = s0 := by
        rw [dbLogStep, if_neg]
        rw [hlast]
        intro hgt
        linarith
      rw [hstep]
      exact ih (fun c2 h2 => hwithin c2 (List.mem_cons_of_mem c h2))

/-- Witness for C6: with the last write at `t = 0`, two further calls at
times 1 and 2 (within the 2-second interval) leave a concrete state
untouched. -/
theorem c6_db_rate_limit_witness :
    (dbLogStep id 1 7 [] none none
        ((⟨[[⟨0, 0⟩]], ⟨[], [], [], []⟩, ⟨[], []⟩, 0⟩ : AcqState))).last_db_log_time = 0 ∧
    [((1 : ℚ), ([] : List (Option ℚ × Option ℚ)), (none : Option ThermalStats),
        (none : Option Grid)),
      ((2 : ℚ), ([] : List (Option ℚ × Option ℚ)), (none : Option ThermalStats),
        (none : Option Grid))].foldl
      (fun s c => dbLogStep id c.1 7 c.2.1 c.2.2.1 c.2.2.2 s)
      ⟨[[⟨0, 0⟩]], ⟨[], [], [], []⟩, ⟨[], []⟩, 0⟩ =
      ⟨[[⟨0, 0⟩]], ⟨[], [], [], []⟩, ⟨[], []⟩, 0⟩ := by
  have h := c6_db_rate_limit id 7 0 ⟨[[⟨0, 0⟩]], ⟨[], [], [], []⟩, ⟨[], []⟩, 0⟩ rfl
    [((1 : ℚ), [], none, none), ((2 : ℚ), [], none, none)]
    (by
      intro c hc
      rcases List.mem_cons.mp hc with h1 | h2
      · rw [h1]; norm_num [DB_LOG_INTERVAL]
      · rw [List.mem_singleton] at h2; rw [h2]; norm_num [DB_LOG_INTERVAL])
  refine ⟨?_, h.2⟩
  have hfirst : dbLogStep id 1 7 [] none none
      ((⟨[[⟨0, 0⟩]], ⟨[], [], [], []⟩, ⟨[], []⟩, 0⟩ : AcqState)) =
      ⟨[[⟨0, 0⟩]], ⟨[], [], [], []⟩, ⟨[], []⟩, 0⟩ := by
    rw [dbLogStep, if_neg]
    norm_num [DB_LOG_INTERVAL]
  rw [hfirst]

/-- In `log_to_db` a missing stats dict writes no thermal row. -/
theorem log_to_db_thermal_none (compress : String → String) (ts : Nat)
    (dres : List (Option ℚ × Option ℚ)) (frm : Option Grid) (db : Db) :
    (log_to_db compress ts dres none frm db).thermal_data = db.thermal_data := by
  cases frm <;> rfl

/-- In `log_to_db` a present stats dict and frame append exactly one
thermal row built from them. -/
theorem log_to_db_thermal_some (compress : String → String) (ts : Nat)
    (dres : List (Option ℚ × Option ℚ)) (stats : ThermalStats) (g : Grid) (db : Db) :
    (log_to_db compress ts dres (some stats) (some g) db).thermal_data =
      db.thermal_data ++ [⟨ts, stats.max, stats.avg, stats.min, storeBlob compress g⟩] := by
  rw [log_to_db]

/-- C10: every `thermal_data` row the acquisition cycle writes is
internally consistent — its `max_temp`, `avg_temp` and `min_temp` columns
are the maximum, mean and minimum of the grid recovered from its own
`raw_frame` blob, because the stats and the blob come from the same
accepted frame in the same cycle. -/
theorem c10_thermal_row_consistent (compress decompress : String → String)
    (hzlib : ∀ s, decompress (compress s) = s) (now : ℚ) (tick dbts : Nat)
    (dht : List (Option ℚ × Option ℚ)) (mlxRead : Option Grid) (s : AcqState)
    (r : ThermalRow)
    (hr : r ∈ (thermalCycle compress now tick dbts dht mlxRead s).db.thermal_data) :
    r ∈ s.db.thermal_data ∨
      ∃ g, loadGrid decompress r.raw_frame = some g ∧
        r.max_temp = gridMax g ∧ r.avg_temp = gridAvg g ∧ r.min_temp = gridMin g := by
  cases mlxRead with
  | none =>
    left
    rw [thermalCycle, dbLogStep] at hr
    split at hr
    · rw [show (({ s with
          db := log_to_db compress dbts dht none none s.db
          last_db_log_time := now } : AcqState)).db = log_to_db compress dbts dht none none s.db
        from rfl, log_to_db_thermal_none] at hr
      exact hr
    · exact hr
  | some frame =>
    rw [thermalCycle] at hr
    split at hr
    · exact Or.inl hr
    · rw [dbLogStep] at hr
      split at hr
      · rw [show ∀ (s1 : AcqState) (d : Db), (({ s1 with db := d, last_db_log_time := now } : AcqState)).db = d
          from fun _ _ => rfl] at hr
        rw [log_to_db_thermal_some] at hr
        rcases List.mem_append.mp hr with hold | hnew
        · exact Or.inl hold
        · right
          rw [List.mem_singleton] at hnew
          refine ⟨frame, ?_, ?_, ?_, ?_⟩ <;> rw [hnew]
          · rw [loadGrid]
            show deserializeGrid (decompress (compress (serializeGrid frame))) = some frame
            rw [hzlib, deserializeGrid_serializeGrid]
          · rfl
          · rfl
          · rfl
      · exact Or.inl hr

/-- Witness for C10: a concrete accepted frame logged in a concrete cycle
yields a row whose stored blob decodes back to that frame and whose
scalar columns are its stats. -/
theorem c10_thermal_row_consistent_witness :
    (⟨9, 46, 46, 46, storeBlob id [[⟨460, 1⟩]]⟩ : ThermalRow) ∈
        (⟨[[⟨0, 0⟩]], ⟨[], [], [], []⟩, ⟨[], []⟩, 0⟩ : AcqState).db.thermal_data ∨
      ∃ g, loadGrid id (⟨9, 46, 46, 46, storeBlob id [[⟨460, 1⟩]]⟩ : ThermalRow).raw_frame = some g ∧
        (⟨9, 46, 46, 46, storeBlob id [[⟨460, 1⟩]]⟩ : ThermalRow).max_temp = gridMax g ∧
        (⟨9, 46, 46, 46, storeBlob id [[⟨460, 1⟩]]⟩ : ThermalRow).avg_temp = gridAvg g ∧
        (⟨9, 46, 46, 46, storeBlob id [[⟨460, 1⟩]]⟩ : ThermalRow).min_temp = gridMin g := by
  refine c10_thermal_row_consistent id id (fun _ => rfl) 10 9 9 []
    (some [[⟨460, 1⟩]]) ⟨[[⟨0, 0⟩]], ⟨[], [], [], []⟩, ⟨[], []⟩, 0⟩ _ ?_
  rw [thermalCycle, if_neg (by norm_num [gridMax, gridVals, listMax, DecNum.toRat])]
  rw [dbLogStep, if_pos (by norm_num [DB_LOG_INTERVAL])]
  rw [show ∀ (s1 : AcqState) (d : Db), (({ s1 with db := d, last_db_log_time := 10 } : AcqState)).db = d
    from fun _ _ => rfl]
  rw [log_to_db_thermal_some]
  refine List.mem_append.mpr (Or.inr ?_)
  rw [List.mem_singleton]
  show (⟨9, 46, 46, 46, storeBlob id [[⟨460, 1⟩]]⟩ : ThermalRow) =
    ⟨9, (mkStats [[⟨460, 1⟩]]).max, (mkStats [[⟨460, 1⟩]]).avg, (mkStats [[⟨460, 1⟩]]).min,
      storeBlob id [[⟨460, 1⟩]]⟩
  norm_num [mkStats, gridMax, gridAvg, gridMin, gridVals, listMax, listMin, DecNum.toRat]

/-- C4: the replay lookup returns the stored frame whose timestamp is the
minimum among all timestamps `≥ target` — decoded back to the original
grid — and returns the explicit not-found result exactly when no stored
frame lies at or after the target. -/
theorem c4_replay_lookup (compress decompress : String → String)
    (hzlib : ∀ s, decompress (compress s) = s)
    (rows : List ThermalRow) (target : Nat)
    (hwf : ∀ r ∈ rows, ∃ g, r.raw_frame = storeBlob compress g) :
    (replay_snapshot decompress rows target = none ↔
      ∀ r ∈ rows, r.timestamp < target) ∧
    (∀ g ts, replay_snapshot decompress rows target = some (g, ts) →
      target ≤ ts ∧
      (∃ r ∈ rows, r.timestamp = ts ∧ r.raw_frame = storeBlob compress g) ∧
      ∀ r ∈ rows, target ≤ r.timestamp → ts ≤ r.timestamp) := by
  cases hq : replayQuery rows target with
  | none =>
    have hnone : replay_snapshot decompress rows target = none := by
      rw [replay_snapshot, hq]
    constructor
    · rw [hnone]
      simp only [true_iff]
      exact (replayQuery_none_iff rows target).mp hq
    · intro g ts habs
      rw [hnone] at habs
      exact Option.noConfusion habs
  | some r0 =>
    obtain ⟨hmem, hge, hmin⟩ := replayQuery_some_spec rows target r0 hq
    obtain ⟨g0, hg0⟩ := hwf r0 hmem
    have hload : loadGrid decompress r0.raw_frame = some g0 := by
      rw [hg0, storeBlob, loadGrid, hzlib, deserializeGrid_serializeGrid]
    have hsome : replay_snapshot decompress rows target = some (g0, r0.timestamp) := by
      rw [replay_snapshot, hq]
      show (match loadGrid decompress r0.raw_frame with
        | some g => some (g, r0.timestamp)
        | none => none) = some (g0, r0.timestamp)
      rw [hload]
    constructor
    · rw [hsome]
      constructor
      · intro habs; exact Option.noConfusion habs
      · intro hall
        exact absurd hge (by have := hall r0 hmem; omega)
    · intro g ts hgts
      rw [hsome] at hgts
      have hg : g = g0 ∧ ts = r0.timestamp := by
        injection hgts with h1
        injection h1 with h2 h3
        exact ⟨h2.symm, h3.symm⟩
      rw [hg.1, hg.2]
      exact ⟨hge, ⟨r0, hmem, rfl, hg0⟩, hmin⟩

/-- Witness for C4: with frames stored at timestamps 98 and 103 only, the
replay of target 100 returns the decoded 103 frame (the earliest at or
after the target), per the spec's `T−2s` / `T+3s` example. -/
theorem c4_replay_lookup_witness :
    (replay_snapshot id
        [⟨98, 21, 21, 21, storeBlob id [[⟨210, 1⟩]]⟩,
          ⟨103, 23, 23, 23, storeBlob id [[⟨230, 1⟩]]⟩] 100 = none ↔
      ∀ r ∈ [(⟨98, 21, 21, 21, storeBlob id [[⟨210, 1⟩]]⟩ : ThermalRow),
          ⟨103, 23, 23, 23, storeBlob id [[⟨230, 1⟩]]⟩], r.timestamp < 100) ∧
    (∀ g ts, replay_snapshot id
        [⟨98, 21, 21, 21, storeBlob id [[⟨210, 1⟩]]⟩,
          ⟨103, 23, 23, 23, storeBlob id [[⟨230, 1⟩]]⟩] 100 = some (g, ts) →
      100 ≤ ts ∧
      (∃ r ∈ [(⟨98, 21, 21, 21, storeBlob id [[⟨210, 1⟩]]⟩ : ThermalRow),
          ⟨103, 23, 23, 23, storeBlob id [[⟨230, 1⟩]]⟩],
        r.timestamp = ts ∧ r.raw_frame = storeBlob id g) ∧
      ∀ r ∈ [(⟨98, 21, 21, 21, storeBlob id [[⟨210, 1⟩]]⟩ : ThermalRow),
          ⟨103, 23, 23, 23, storeBlob id [[⟨230, 1⟩]]⟩],
        100 ≤ r.timestamp → ts ≤ r.timestamp) :=
  c4_replay_lookup id id (fun _ => rfl) _ 100
    (by
      intro r hr
      rcases List.mem_cons.mp hr with h1 | h2
      · exact ⟨[[⟨210, 1⟩]], by rw [h1]⟩
      · rw [List.mem_singleton] at h2
        exact ⟨[[⟨230, 1⟩]], by rw [h2]⟩)

/-- The dispatch tail preserves the trigger list, dispatches exactly when
triggers exist and the cooldown has elapsed, and records `now` as the new
cooldown timestamp exactly on dispatch. -/
theorem dispatchStage_spec (t : TrigOut) (e : String) (now last : ℚ) :
    (dispatchStage t e now last).triggers = t.triggers ∧
    ((dispatchStage t e now last).dispatched.isSome = true ↔
      (t.triggers ≠ [] ∧ now - last > ALERT_COOLDOWN)) ∧
    ((dispatchStage t e now last).last_alert_time =
      if (dispatchStage t e now last).dispatched.isSome = true then now else last) := by
  by_cases he : t.triggers.isEmpty
  · have hnil : t.triggers = [] := List.isEmpty_iff.mp he
    simp only [dispatchStage, if_pos he]
    refine ⟨by trivial, ?_, by simp⟩
    simp [hnil]
  · have hne : t.triggers ≠ [] := by
      intro h
      rw [h] at he
      exact he rfl
    by_cases hg : now - last > ALERT_COOLDOWN
    · simp only [dispatchStage, if_neg he, if_pos hg]
      refine ⟨by trivial, ?_, by simp⟩
      simp [hne, hg]
    · simp only [dispatchStage, if_neg he, if_neg hg]
      refine ⟨by trivial, ?_, by simp⟩
      simp [hne, hg]

/-- One tick dispatches exactly when it produced triggers and the cooldown
had elapsed, and updates the cooldown timestamp exactly on dispatch (an
invalid email yields no triggers and no dispatch). -/
theorem runTick_spec (inp : EvalInput) (now last : ℚ) :
    ((runTick inp now last).dispatched.isSome = true ↔
      ((runTick inp now last).triggers ≠ [] ∧ now - last > ALERT_COOLDOWN)) ∧
    ((runTick inp now last).last_alert_time =
      if (runTick inp now last).dispatched.isSome = true then now else last) := by
  rw [runTick, update_dashboard]
  by_cases hv : validEmail inp.email_addr
  · rw [if_pos hv]
    obtain ⟨ht, hd, hl⟩ := dispatchStage_spec
      (evalTriggers inp.alert_source inp.dht_temp_lim inp.dht_hum_min inp.dht_hum_max
        inp.thermal_lim inp.thermal_mode inp.ns1 inp.ns2 inp.ns3 inp.ns4
        inp.t1 inp.h1 inp.t2 inp.h2 inp.t3 inp.h3 inp.t4 inp.h4 inp.frame)
      inp.email_addr now last
    rw [ht]
    exact ⟨hd, hl⟩
  · rw [if_neg hv]
    refine ⟨?_, by simp⟩
    simp

/-- C2: dispatch is gated by the cooldown — with a non-empty trigger list
a dispatch occurs exactly when `now - last_alert_time > ALERT_COOLDOWN`,
the cooldown timestamp is set to `now` immediately on dispatch, and two
evaluate-and-trigger ticks separated by less than `ALERT_COOLDOWN`
produce exactly one dispatch: the first dispatches, the second does not. -/
theorem c2_cooldown_single_dispatch (inp1 inp2 : EvalInput) (now1 now2 last0 : ℚ) :
    ((runTick inp1 now1 last0).dispatched.isSome = true ↔
      ((runTick inp1 now1 last0).triggers ≠ [] ∧ now1 - last0 > ALERT_COOLDOWN)) ∧
    ((runTick inp1 now1 last0).dispatched.isSome = true →
      (runTick inp1 now1 last0).last_alert_time = now1) ∧
    ((runTick inp1 now1 last0).triggers ≠ [] → now1 - last0 > ALERT_COOLDOWN →
      now2 - now1 < ALERT_COOLDOWN →
      (runTick inp1 now1 last0).dispatched.isSome = true ∧
      (runTick inp2 now2 ((runTick inp1 now1 last0).last_alert_time)).dispatched = none) := by
  obtain ⟨hiff1, hlast1⟩ := runTick_spec inp1 now1 last0
  refine ⟨hiff1, ?_, ?_⟩
  · intro hd
    rw [hlast1, if_pos hd]
  · intro htr hgate hlt
    have hd1 : (runTick inp1 now1 last0).dispatched.isSome = true := hiff1.mpr ⟨htr, hgate⟩
    refine ⟨hd1, ?_⟩
    have hl1 : (runTick inp1 now1 last0).last_alert_time = now1 := by
      rw [hlast1, if_pos hd1]
    obtain ⟨hiff2, _⟩ := runTick_spec inp2 now2 ((runTick inp1 now1 last0).last_alert_time)
    rw [hl1] at hiff2 ⊢
    have hno : ¬((runTick inp2 now2 now1).dispatched.isSome = true) := by
      rw [hiff2]
      rintro ⟨_, hg2⟩
      linarith
    cases hoption : (runTick inp2 now2 now1).dispatched with
    | none => rfl
    | some x =>
      rw [hoption] at hno
      simp at hno

theorem fmt1_46 : fmt1 (46 : ℚ) = "46.0" := by
  have h : roundHalfEven ((46 : ℚ) * 10) = 460 := by
    rw [roundHalfEven]
    norm_num
  rw [fmt1, h]
  rfl

/-- The concrete probe-mode evaluation behind the spec's end-to-end
example: S1 at 46.0 °C over the 45 °C bound, S2 at 20.0 °C, humidity in
band, default labels, valid email, cooldown expired. -/
theorem update_dashboard_example_eval :
    update_dashboard AlertSource.dht (some 45) (some 30) (some 60) (some 50)
      ThermalMode.max "a@b.c" "" "" "" ""
      (some 46) (some 50) (some 20) (some 50) none none none none
      [[⟨200, 1⟩]] 1000 0 =
    { triggers := ["S1 Exhaust Temp: 46.0C"]
      failed_sensors := [(1, "S1")]
      is_dht_temp_alert := true
      is_dht_hum_alert := false
      is_thermal_alert := false
      alert_msg := "⚠️ Alert: S1 Exhaust Temp: 46.0C (Email Sent)"
      dispatched := some ("a@b.c", "CRITICAL: AIRFLOW OVERHEAT",
        "The following limits were breached:\n\nS1 Exhaust Temp: 46.0C")
      last_alert_time := 1000 } := by
  have hval : validEmail "a@b.c" = true := by decide
  have hs1 : sensorName "" "S1" = "S1" := rfl
  have hs2 : sensorName "" "S2" = "S2" := rfl
  have hs3 : sensorName "" "S3" = "S3" := rfl
  have hs4 : sensorName "" "S4" = "S4" := rfl
  have htrig : evalTriggers AlertSource.dht (some 45) (some 30) (some 60) (some 50)
      ThermalMode.max "" "" "" "" (some 46) (some 50) (some 20) (some 50)
      none none none none [[⟨200, 1⟩]] =
      ⟨["S1 Exhaust Temp: 46.0C"], [(1, "S1")], true, false, false⟩ := by
    norm_num [evalTriggers, evalProbe, hs1, hs2, hs3, hs4, fmt1_46]
    decide
  rw [update_dashboard, if_pos hval, htrig, dispatchStage]
  norm_num [ALERT_COOLDOWN]
  decide

/-- C7: in probe mode with temperature threshold 45 and default labels,
a snapshot with S1 at 46.0 °C and S2 at 20.0 °C (humidity in band) yields
exactly the trigger list `["S1 Exhaust Temp: 46.0C"]`, only the
airflow-overheat flag, only S1 marked failed, and the subject
`"CRITICAL: AIRFLOW OVERHEAT"`. -/
theorem c7_probe_mode_example :
    update_dashboard AlertSource.dht (some 45) (some 30) (some 60) (some 50)
      ThermalMode.max "a@b.c" "" "" "" ""
      (some 46) (some 50) (some 20) (some 50) none none none none
      [[⟨200, 1⟩]] 1000 0 =
    { triggers := ["S1 Exhaust Temp: 46.0C"]
      failed_sensors := [(1, "S1")]
      is_dht_temp_alert := true
      is_dht_hum_alert := false
      is_thermal_alert := false
      alert_msg := "⚠️ Alert: S1 Exhaust Temp: 46.0C (Email Sent)"
      dispatched := some ("a@b.c", "CRITICAL: AIRFLOW OVERHEAT",
        "The following limits were breached:\n\nS1 Exhaust Temp: 46.0C")
      last_alert_time := 1000 } :=
  update_dashboard_example_eval

/-- Witness for C2: with the example trigger-producing input, a first tick
at `now = 1000` (cooldown expired since `last = 0`) dispatches, and a
second tick 100 s later — less than the 300 s cooldown — does not. -/
theorem c2_cooldown_single_dispatch_witness :
    (runTick ⟨AlertSource.dht, some 45, some 30, some 60, some 50, ThermalMode.max,
        "a@b.c", "", "", "", "", some 46, some 50, some 20, some 50,
        none, none, none, none, [[⟨200, 1⟩]]⟩ 1000 0).dispatched.isSome = true ∧
    (runTick ⟨AlertSource.dht, some 45, some 30, some 60, some 50, ThermalMode.max,
        "a@b.c", "", "", "", "", some 46, some 50, some 20, some 50,
        none, none, none, none, [[⟨200, 1⟩]]⟩ 1100
      ((runTick ⟨AlertSource.dht, some 45, some 30, some 60, some 50, ThermalMode.max,
          "a@b.c", "", "", "", "", some 46, some 50, some 20, some 50,
          none, none, none, none, [[⟨200, 1⟩]]⟩ 1000 0).last_alert_time)).dispatched = none :=
  (c2_cooldown_single_dispatch
    ⟨AlertSource.dht, some 45, some 30, some 60, some 50, ThermalMode.max,
      "a@b.c", "", "", "", "", some 46, some 50, some 20, some 50,
      none, none, none, none, [[⟨200, 1⟩]]⟩
    ⟨AlertSource.dht, some 45, some 30, some 60, some 50, ThermalMode.max,
      "a@b.c", "", "", "", "", some 46, some 50, some 20, some 50,
      none, none, none, none, [[⟨200, 1⟩]]⟩ 1000 1100 0).2.2
    (by
      have he : runTick ⟨AlertSource.dht, some 45, some 30, some 60, some 50, ThermalMode.max,
          "a@b.c", "", "", "", "", some 46, some 50, some 20, some 50,
          none, none, none, none, [[⟨200, 1⟩]]⟩ 1000 0 =
          update_dashboard AlertSource.dht (some 45) (some 30) (some 60) (some 50)
            ThermalMode.max "a@b.c" "" "" "" ""
            (some 46) (some 50) (some 20) (some 50) none none none none
            [[⟨200, 1⟩]] 1000 0 := rfl
      rw [he, update_dashboard_example_eval]
      simp)
    (by norm_num [ALERT_COOLDOWN])
    (by norm_num [ALERT_COOLDOWN])

/-- Counterexample for C8 as stated: with the invalid address
`"not-an-email"` the status string carries the warning-sign prefix — it is
`"⚠️ Invalid Email Address format"`, not `"Invalid Email Address format"`. -/
theorem c8_counterexample :
    (update_dashboard AlertSource.dht (some 45) (some 30) (some 60) (some 50)
        ThermalMode.max "not-an-email" "" "" "" ""
        (some 46) (some 50) (some 20) (some 50) none none none none
        [[⟨200, 1⟩]] 1000 0).alert_msg ≠ "Invalid Email Address format" ∧
    (update_dashboard AlertSource.dht (some 45) (some 30) (some 60) (some 50)
        ThermalMode.max "not-an-email" "" "" "" ""
        (some 46) (some 50) (some 20) (some 50) none none none none
        [[⟨200, 1⟩]] 1000 0).alert_msg = "⚠️ Invalid Email Address format" := by
  decide

/-- C8 (amended): for every non-empty email address lacking `"@"` or
`"."`, no threshold evaluation happens at all — for every snapshot and
configuration the result has an empty trigger list, no failed probes, no
category flags, the status `"⚠️ Invalid Email Address format"`, no
dispatch, and an unchanged cooldown timestamp. -/
theorem c8_invalid_email_no_evaluation (alert_source : AlertSource)
    (dht_temp_lim dht_hum_min dht_hum_max thermal_lim : Option ℚ)
    (thermal_mode : ThermalMode) (email_addr : String)
    (ns1 ns2 ns3 ns4 : String)
    (t1 h1 t2 h2 t3 h3 t4 h4 : Option ℚ) (frame : Grid)
    (now last_alert_time : ℚ)
    (hne : email_addr ≠ "")
    (hinv : ¬(email_addr.data.contains '@' = true ∧ email_addr.data.contains '.' = true)) :
    update_dashboard alert_source dht_temp_lim dht_hum_min dht_hum_max thermal_lim
      thermal_mode email_addr ns1 ns2 ns3 ns4 t1 h1 t2 h2 t3 h3 t4 h4 frame
      now last_alert_time =
    { triggers := []
      failed_sensors := []
      is_dht_temp_alert := false
      is_dht_hum_alert := false
      is_thermal_alert := false
      alert_msg := "⚠️ Invalid Email Address format"
      dispatched := none
      last_alert_time := last_alert_time } := by
  have hne' : (email_addr != "") = true := by simpa using hne
  have hv : validEmail email_addr = false := by
    cases hc1 : email_addr.data.contains '@' with
    | true =>
      cases hc2 : email_addr.data.contains '.' with
      | true => exact absurd ⟨hc1, hc2⟩ hinv
      | false => simp only [validEmail, hc2, Bool.and_false]
    | false => simp only [validEmail, hc1, Bool.and_false, Bool.false_and]
  rw [update_dashboard, if_neg (by rw [hv]; exact Bool.false_ne_true)]
  simp [hne']

/-- Witness for C8's amended theorem at the concrete invalid address. -/
theorem c8_invalid_email_no_evaluation_witness :
    update_dashboard AlertSource.dht (some 45) (some 30) (some 60) (some 50)
      ThermalMode.max "not-an-email" "" "" "" ""
      (some 46) (some 50) (some 20) (some 50) none none none none
      [[⟨200, 1⟩]] 1000 0 =
    { triggers := []
      failed_sensors := []
      is_dht_temp_alert := false
      is_dht_hum_alert := false
      is_thermal_alert := false
      alert_msg := "⚠️ Invalid Email Address format"
      dispatched := none
      last_alert_time := 0 } :=
  c8_invalid_email_no_evaluation AlertSource.dht (some 45) (some 30) (some 60) (some 50)
    ThermalMode.max "not-an-email" "" "" "" ""
    (some 46) (some 50) (some 20) (some 50) none none none none
    [[⟨200, 1⟩]] 1000 0 (by decide) (by decide)

theorem cellGT_iff (c : Option ℚ) (lim : ℚ) :
    cellGT c lim = true ↔ ∃ v, c = some v ∧ v > lim := by
  cases c <;> simp [cellGT]

theorem cellLT_iff (c : Option ℚ) (lim : ℚ) :
    cellLT c lim = true ↔ ∃ v, c = some v ∧ v < lim := by
  cases c <;> simp [cellLT]

theorem cellBand_iff (c : Option ℚ) (lo hi : ℚ) :
    (cellLT c lo || cellGT c hi) = true ↔ ∃ v, c = some v ∧ (v < lo ∨ v > hi) := by
  cases c <;> simp [cellLT, cellGT]

/-- C9: with all four thresholds configured (non-zero), exceeded-only
filtering retains a merged-history row if and only if it is in the input
and violates at least one condition: its thermal `max_temp` exceeds the
thermal limit, or some probe temperature exceeds the probe limit, or some
probe humidity lies outside the `[hum_min, hum_max]` band. -/
theorem c9_exceeded_only_filter (tl dl hmin hmax : ℚ)
    (htl : tl ≠ 0) (hdl : dl ≠ 0) (hmn : hmin ≠ 0) (hmx : hmax ≠ 0)
    (df : List HistRow) (r : HistRow) :
    r ∈ filterExceeded (some tl) (some dl) (some hmin) (some hmax) df ↔
      r ∈ df ∧
        ((∃ v, r.max_temp = some v ∧ v > tl) ∨
         (∃ c ∈ [r.s1_temp, r.s2_temp, r.s3_temp, r.s4_temp], ∃ v, c = some v ∧ v > dl) ∨
         (∃ c ∈ [r.s1_humidity, r.s2_humidity, r.s3_humidity, r.s4_humidity],
           ∃ v, c = some v ∧ (v < hmin ∨ v > hmax))) := by
  have htr1 : truthy (some tl) = true := by simp [truthy, htl]
  have htr2 : truthy (some dl) = true := by simp [truthy, hdl]
  have htr3 : truthy (some hmin) = true := by simp [truthy, hmn]
  have htr4 : truthy (some hmax) = true := by simp [truthy, hmx]
  rw [filterExceeded, if_pos (by rw [htr1]; simp)]
  rw [List.mem_filter]
  have hrow : rowExceeds (some tl) (some dl) (some hmin) (some hmax) r = true ↔
      ((∃ v, r.max_temp = some v ∧ v > tl) ∨
       (∃ c ∈ [r.s1_temp, r.s2_temp, r.s3_temp, r.s4_temp], ∃ v, c = some v ∧ v > dl) ∨
       (∃ c ∈ [r.s1_humidity, r.s2_humidity, r.s3_humidity, r.s4_humidity],
         ∃ v, c = some v ∧ (v < hmin ∨ v > hmax))) := by
    have hcell : ∀ (c : Option ℚ),
        (∃ v, c = some v ∧ (v < hmin ∨ v > hmax)) ↔
          ((∃ v, c = some v ∧ v < hmin) ∨ (∃ v, c = some v ∧ v > hmax)) := by
      intro c
      constructor
      · rintro ⟨v, hv, h | h⟩
        exacts [Or.inl ⟨v, hv, h⟩, Or.inr ⟨v, hv, h⟩]
      · rintro (⟨v, hv, h⟩ | ⟨v, hv, h⟩)
        exacts [⟨v, hv, Or.inl h⟩, ⟨v, hv, Or.inr h⟩]
    rw [rowExceeds, htr1, htr2, htr3, htr4]
    simp only [Bool.true_and, Bool.and_self, Bool.or_eq_true, cellGT_iff, cellLT_iff,
      Option.getD_some]
    simp only [List.mem_cons, List.not_mem_nil, or_false, exists_eq_or_imp, exists_eq_left]
    simp only [hcell]
    simp only [or_assoc]
  rw [hrow]

/-- Witness for C9 with probe threshold 45: the row with `S1_temp = 46`,
`S2_temp = 20` is retained; the row with every value inside its bounds
and thermal max below its limit is excluded. -/
theorem c9_exceeded_only_filter_witness :
    (⟨0, some 40, some 30, some 20, some 46, some 50, some 20, some 50,
        none, none, none, none⟩ : HistRow) ∈
      filterExceeded (some 50) (some 45) (some 30) (some 60)
        [⟨0, some 40, some 30, some 20, some 46, some 50, some 20, some 50,
            none, none, none, none⟩,
          ⟨1, some 40, some 30, some 20, some 20, some 50, some 20, some 50,
            none, none, none, none⟩] ∧
    (⟨1, some 40, some 30, some 20, some 20, some 50, some 20, some 50,
        none, none, none, none⟩ : HistRow) ∉
      filterExceeded (some 50) (some 45) (some 30) (some 60)
        [⟨0, some 40, some 30, some 20, some 46, some 50, some 20, some 50,
            none, none, none, none⟩,
          ⟨1, some 40, some 30, some 20, some 20, some 50, some 20, some 50,
            none, none, none, none⟩] := by
  constructor
  · exact (c9_exceeded_only_filter 50 45 30 60 (by norm_num) (by norm_num)
      (by norm_num) (by norm_num) _ _).mpr
      ⟨by simp, Or.inr (Or.inl ⟨some 46, by simp, 46, rfl, by norm_num⟩)⟩
  · intro hin
    obtain ⟨-, hviol⟩ := (c9_exceeded_only_filter 50 45 30 60 (by norm_num) (by norm_num)
      (by norm_num) (by norm_num) _ _).mp hin
    rcases hviol with ⟨v, hv, hgt⟩ | ⟨c, hc, v, hv, hgt⟩ | ⟨c, hc, v, hv, hband⟩
    · simp only [show (⟨1, some 40, some 30, some 20, some 20, some 50, some 20, some 50,
          none, none, none, none⟩ : HistRow).max_temp = some 40 from rfl,
        Option.some.injEq] at hv
      rw [← hv] at hgt
      norm_num at hgt
    · simp only [List.mem_cons, List.not_mem_nil, or_false] at hc
      rcases hc with rfl | rfl | rfl | rfl <;>
        simp only [Option.some.injEq, reduceCtorEq] at hv <;>
        (rw [← hv] at hgt; norm_num at hgt)
    · simp only [List.mem_cons, List.not_mem_nil, or_false] at hc
      rcases hc with rfl | rfl | rfl | rfl <;>
        simp only [Option.some.injEq, reduceCtorEq] at hv <;>
        (rw [← hv] at hband; norm_num at hband)

end FireDash
